import Mathlib

/-!
Shallow embedding of the data pipeline of `src/app.py` (a Streamlit app that
filters, derives and maps an isotope catalog and a country-production table
onto plot-ready structures).  Pandas DataFrames become Lean lists of records;
machine floats on the data path are embedded as rationals (every literal in
the source is a decimal); the numpy log10 is kept abstract over the reals.
Definitions are translated from the source; theorems settle the spec claims.
-/

/-- The `Primary_Use` column of the isotope table (`src/app.py` line 97). -/
inductive Use where
  | Medical
  | Industrial
  | Research
  | Energy
deriving DecidableEq, Repr

/-- The `Production_Method` column of the isotope table (`src/app.py` line 96). -/
inductive Method where
  | Reactor
  | Fission
  | Accelerator
  | Mining
deriving DecidableEq, Repr

/-- One row of the isotope DataFrame built by `get_isotope_data`
(`src/app.py` lines 92-112): column names become field names. -/
structure Isotope where
  isotope : String
  half_life : ℚ
  production_method : Method
  primary_use : Use
  global_production : ℚ
  cost_per_GBq : ℚ
  protons : ℕ
  neutrons : ℕ
  applications : String
deriving DecidableEq, Repr

def tc99m : Isotope :=
  ⟨"Tc-99m", 6.0, .Reactor, .Medical, 150000, 250, 43, 56, "Medical imaging"⟩

def i131 : Isotope :=
  ⟨"I-131", 8.0, .Reactor, .Medical, 30000, 150, 53, 78, "Thyroid treatment"⟩

def co60 : Isotope :=
  ⟨"Co-60", 1925.0, .Reactor, .Industrial, 1500, 50, 27, 33, "Sterilization"⟩

def mo99 : Isotope :=
  ⟨"Mo-99", 66.0, .Reactor, .Medical, 300000, 200, 42, 57, "Medical isotope gen"⟩

def xe133 : Isotope :=
  ⟨"Xe-133", 5.2, .Fission, .Medical, 50000, 300, 54, 79, "Lung ventilation"⟩

def ir192 : Isotope :=
  ⟨"Ir-192", 74.0, .Reactor, .Industrial, 2000, 70, 77, 115, "Industrial radiography"⟩

def c14 : Isotope :=
  ⟨"C-14", 5730000.0, .Accelerator, .Research, 100, 5000, 6, 8, "Carbon dating"⟩

def u235 : Isotope :=
  ⟨"U-235", 703800000.0, .Mining, .Energy, 500000, 0.5, 92, 143, "Nuclear fuel"⟩

/-- The fixed 8-row isotope catalog returned by `get_isotope_data`
(`src/app.py` lines 92-112). -/
def get_isotope_data : List Isotope :=
  [tc99m, i131, co60, mo99, xe133, ir192, c14, u235]

/-- The isotope filter of `src/app.py` lines 166-170:
`df[(df["Half-Life"] >= lo) & (df["Half-Life"] <= hi) & (df["Primary_Use"].isin(uses))]`.
A pandas boolean-mask selection keeps the surviving rows in input order. -/
def filter_isotopes (lo hi : ℚ) (uses : List Use) (df : List Isotope) : List Isotope :=
  df.filter fun r =>
    decide (lo ≤ r.half_life) && decide (r.half_life ≤ hi) && decide (r.primary_use ∈ uses)

/-- The derived `Market_Value` column of `src/app.py` line 273:
`df["Market_Value"] = df["Global_Production (TBq/year)"] * df["Cost_per_GBq (USD)"] * 1000`.
An elementwise product over the whole (unfiltered) frame; each row is paired
with its derived value. -/
def with_market_value (df : List Isotope) : List (Isotope × ℚ) :=
  df.map fun r => (r, r.global_production * r.cost_per_GBq * 1000)

/-- Stable ascending insertion of one element, keyed by a rational:
the element goes before the first existing element of key not below its own.
This is the comparison numpy's sort applies within the
insertion-sort regime it uses on frames of this size. -/
def insertAsc {α : Type} (key : α → ℚ) (a : α) : List α → List α
  | [] => [a]
  | b :: l => if key a ≤ key b then a :: b :: l else b :: insertAsc key a l

/-- Stable ascending sort by a rational key (insertion sort):
equal-keyed elements keep their input order. -/
def sortAsc {α : Type} (key : α → ℚ) (l : List α) : List α :=
  l.foldr (insertAsc key) []

/-- Model of `DataFrame.sort_values(column, ascending=False)` as the source
calls it (`src/app.py` lines 275 and 308): for a descending sort pandas'
`nargsort` first reverses the values together with their row indices, then
takes an ascending argsort, then reverses the resulting indexer again.
With a stable underlying argsort — numpy's argsort on frames below its
small-sort threshold is a pure insertion sort, and both frames here have at
most 8 rows — the two reversals cancel on ties: the result is descending by
key with equal keys kept in original input order (pandas' stable-descending
behaviour). -/
def sort_values_desc {α : Type} (key : α → ℚ) (l : List α) : List α :=
  (sortAsc key l.reverse).reverse

/-- The market-value bar chart of `src/app.py` lines 274-282:
`px.bar(df.sort_values("Market_Value", ascending=False), x="Isotope",
y="Market_Value", color="Primary_Use")` — an ordered sequence of
(label, value, category) bars. -/
def make_market_value_bars (df : List Isotope) : List (String × ℚ × Use) :=
  (sort_values_desc (fun p => p.2) (with_market_value df)).map
    fun p => (p.1.isotope, p.2, p.1.primary_use)

/-- The economic scatter of `src/app.py` lines 258-268:
`px.scatter(df, x="Cost_per_GBq (USD)", y="Global_Production (TBq/year)",
size="Half-Life", color="Primary_Use", hover_name="Isotope", log_x=True,
log_y=True)`.  Every row of the frame is passed through unchanged as
(hover label, x, y, size, color category); the log flags are rendering
attributes and the source performs no positivity validation. -/
def make_scatter_points (df : List Isotope) : List (String × ℚ × ℚ × ℚ × Use) :=
  df.map fun r => (r.isotope, r.cost_per_GBq, r.global_production, r.half_life, r.primary_use)

/-- A cell of the `Total_Production_TBq` column: pandas reads either a float
or a string (the not-reported sentinel "NR" among them) into the column. -/
inductive ProdVal where
  | num (q : ℚ)
  | str (s : String)
deriving DecidableEq, Repr

/-- One row of the country-production DataFrame (`src/app.py` lines 77-81). -/
structure CountryRow where
  country : String
  major_isotopes : String
  total_production : ProdVal
deriving DecidableEq, Repr

/-- A country row after coercion: the production value is numeric. -/
structure CountryNum where
  country : String
  major_isotopes : String
  total_production : ℚ
deriving DecidableEq, Repr

/-- `pd.to_numeric(cell, errors="coerce")` on one cell: a numeric cell passes
through, a string cell is parsed by pandas' numeric parser (kept abstract as
the parameter `parse`; a failed parse is NaN, which `dropna` then removes,
so failure is `none`). -/
def to_numeric (parse : String → Option ℚ) : ProdVal → Option ℚ
  | .num q => some q
  | .str s => parse s

/-- The country-table cleaning of `src/app.py` lines 303-305:
first `country_df[country_df["Total_Production_TBq"] != "NR"]` (sentinel rows
structurally dropped), then `pd.to_numeric(..., errors="coerce")` followed by
`dropna()` (rows whose production fails numeric coercion dropped). -/
def clean_country_production (parse : String → Option ℚ) (rows : List CountryRow) :
    List CountryNum :=
  ((rows.filter fun r => decide (r.total_production ≠ ProdVal.str "NR")).filterMap
    fun r => (to_numeric parse r.total_production).map
      fun q => CountryNum.mk r.country r.major_isotopes q)

/-- The country bar chart of `src/app.py` lines 307-314:
`px.bar(filtered_country_df.sort_values("Total_Production_TBq", ascending=False),
x="Country", y="Total_Production_TBq")` — ordered (label, value) bars. -/
def make_country_bars (rows : List CountryNum) : List (String × ℚ) :=
  (sort_values_desc (fun r => r.total_production) rows).map
    fun r => (r.country, r.total_production)

/-- What happens when `load_country_data` (`src/app.py` lines 69-89) touches
the filesystem: the CSV file is absent, reading it raises, or it parses to
some rows. -/
inductive LoadResult where
  | missing
  | failure (msg : String)
  | success (rows : List CountryRow)

/-- The fixed fallback catalog hardcoded twice in `load_country_data`
(`src/app.py` lines 77-81 and 85-89, identical literals). -/
def fallback_country_data : List CountryRow :=
  [⟨"USA", "192I, 125I", .num 30.4⟩,
   ⟨"Canada", "99Mo, 131I", .num 15000.0⟩,
   ⟨"Germany", "18F, 123I", .num 30.0⟩,
   ⟨"France", "99Mo, 153Sm", .num 4063.5⟩,
   ⟨"Japan", "192Ir, 169Yb", .num 982.4⟩,
   ⟨"Australia", "192Ir, 169Yb", .num 1551.9⟩]

/-- `load_country_data` of `src/app.py` lines 69-89: a missing file returns
the fallback frame, a raised exception is caught (`except Exception`) and, after
a warning, the same fallback frame is returned; only a successful read returns
the file's rows.  The function is total: no branch re-raises to the caller. -/
def load_country_data : LoadResult → List CountryRow
  | .missing => fallback_country_data
  | .failure _ => fallback_country_data
  | .success rows => rows

/-- What `np.log10` yields on one value (`src/app.py` line 195 applies it to
the filtered half-life column): a finite real for positive input, `-inf` for
zero, `nan` for negative input — numpy emits at most a RuntimeWarning and
never raises. -/
inductive Np10 where
  | finite (x : ℝ)
  | negInf
  | nan

/-- The log10 transform the source feeds its z-coordinate
(`z=np.log10(filtered_df["Half-Life"])`, `src/app.py` line 195), with
numpy's total semantics: no domain check precedes it anywhere in the file. -/
noncomputable def np_log10 (q : ℚ) : Np10 :=
  if 0 < q then .finite (Real.logb 10 q) else if q = 0 then .negInf else .nan

/-- The 3D isotope trace of `src/app.py` lines 192-212: the filtered rows
mapped to `(x=Protons, y=Neutrons, z=np.log10(Half-Life))` with the isotope
name as label (marker color carries `Global_Production`). -/
noncomputable def make_3d_isotope_points (lo hi : ℚ) (uses : List Use) :
    List (ℕ × ℕ × Np10 × String) :=
  (filter_isotopes lo hi uses get_isotope_data).map fun r =>
    (r.protons, r.neutrons, np_log10 r.half_life, r.isotope)

/-- The atomic-background generator `create_atomic_background`
(`src/app.py` lines 115-123): 100 rings of 10 points; for ring `i` and step
`j`, `angle = 2*pi*j/10` and the point is `(cos angle, sin angle, i/10)`
plus per-coordinate noise.  Each coordinate consumes one fresh draw from
`np.random.normal(0, 0.1)`, embedded as the injected stream `noise`
(three consecutive positions per point, so every draw is independent). -/
noncomputable def create_atomic_background (noise : ℕ → ℝ) : List (ℝ × ℝ × ℝ) :=
  (List.range 100).flatMap fun i =>
    (List.range 10).map fun j =>
      let k : ℕ := 3 * (10 * i + j)
      (Real.cos (2 * Real.pi * (j : ℝ) / 10) + noise k,
       Real.sin (2 * Real.pi * (j : ℝ) / 10) + noise (k + 1),
       (i : ℝ) / 10 + noise (k + 2))

/-- The download of `src/app.py` line 249:
`st.download_button("Download Isotope Data", df.to_csv(), "isotope_data.csv")`.
At that line `df` is still the unfiltered frame bound at line 165 — the filter
result went to the separate name `filtered_df`, and the `Market_Value` column
is only added at line 273, after the download button is built.  The filter
parameters are in scope but unused, so the serialized rows are the raw
catalog. -/
def download_isotope_data (_lo _hi : ℚ) (_uses : List Use) : List Isotope :=
  get_isotope_data

/-- The economic scatter as the app builds it (`src/app.py` line 258): reads
the unfiltered `df`; the filter parameters are in scope but unused. -/
def econ_scatter_output (_lo _hi : ℚ) (_uses : List Use) :
    List (String × ℚ × ℚ × ℚ × Use) :=
  make_scatter_points get_isotope_data

/-- The market-value bars as the app builds them (`src/app.py` lines 273-282):
read the unfiltered `df`; the filter parameters are in scope but unused. -/
def market_bars_output (_lo _hi : ℚ) (_uses : List Use) : List (String × ℚ × Use) :=
  make_market_value_bars get_isotope_data

/-- The country bars as the app builds them (`src/app.py` lines 296-314):
loaded and cleaned country data, independent of the isotope filter
parameters (in scope but unused). -/
def country_bars_output (_lo _hi : ℚ) (_uses : List Use) (res : LoadResult)
    (parse : String → Option ℚ) : List (String × ℚ) :=
  make_country_bars (clean_country_production parse (load_country_data res))

/-! ### Lemmas about the sorting model -/

theorem mem_insertAsc {α : Type} (key : α → ℚ) (a x : α) (l : List α) :
    x ∈ insertAsc key a l ↔ x = a ∨ x ∈ l := by
  induction l with
  | nil => simp [insertAsc]
  | cons b t ih =>
    by_cases h : key a ≤ key b
    · simp [insertAsc, h]
    · simp only [insertAsc, if_neg h, List.mem_cons, ih]
      tauto

theorem pairwise_insertAsc {α : Type} {key : α → ℚ} (a : α) {l : List α}
    (h : l.Pairwise fun x y => key x ≤ key y) :
    (insertAsc key a l).Pairwise fun x y => key x ≤ key y := by
  induction l with
  | nil => simp [insertAsc]
  | cons b t ih =>
    rcases List.pairwise_cons.mp h with ⟨hb, ht⟩
    by_cases hab : key a ≤ key b
    · simp only [insertAsc, if_pos hab]
      refine List.pairwise_cons.mpr ⟨?_, h⟩
      intro x hx
      rcases List.mem_cons.mp hx with rfl | hx
      · exact hab
      · exact le_trans hab (hb x hx)
    · simp only [insertAsc, if_neg hab]
      refine List.pairwise_cons.mpr ⟨?_, ih ht⟩
      intro x hx
      rcases (mem_insertAsc key a x t).mp hx with rfl | hx
      · exact le_of_not_le hab
      · exact hb x hx

theorem perm_insertAsc {α : Type} (key : α → ℚ) (a : α) (l : List α) :
    (insertAsc key a l).Perm (a :: l) := by
  induction l with
  | nil => simp [insertAsc]
  | cons b t ih =>
    by_cases h : key a ≤ key b
    · simp [insertAsc, h]
    · simp only [insertAsc, if_neg h]
      exact (ih.cons b).trans (List.Perm.swap a b t)

theorem filter_insertAsc {α : Type} (key : α → ℚ) (v : ℚ) (a : α) (l : List α) :
    (insertAsc key a l).filter (fun x => decide (key x = v)) =
      if key a = v then a :: l.filter (fun x => decide (key x = v))
      else l.filter (fun x => decide (key x = v)) := by
  induction l with
  | nil => by_cases h : key a = v <;> simp [insertAsc, h]
  | cons b t ih =>
    by_cases hab : key a ≤ key b
    · simp only [insertAsc, if_pos hab]
      by_cases h : key a = v <;> simp [List.filter_cons, h]
    · simp only [insertAsc, if_neg hab]
      have hba : key b < key a := lt_of_not_le hab
      by_cases h : key a = v
      · have hbv : ¬ (key b = v) := by rw [← h]; exact ne_of_lt hba
        simp [List.filter_cons, hbv, ih, h]
      · simp [List.filter_cons, ih, h]

theorem sortAsc_pairwise {α : Type} (key : α → ℚ) (l : List α) :
    (sortAsc key l).Pairwise fun x y => key x ≤ key y := by
  induction l with
  | nil => simp [sortAsc]
  | cons a t ih => exact pairwise_insertAsc a ih

theorem sortAsc_perm {α : Type} (key : α → ℚ) (l : List α) :
    (sortAsc key l).Perm l := by
  induction l with
  | nil => simp [sortAsc]
  | cons a t ih =>
    exact (perm_insertAsc key a (sortAsc key t)).trans (ih.cons a)

theorem filter_sortAsc {α : Type} (key : α → ℚ) (v : ℚ) (l : List α) :
    (sortAsc key l).filter (fun x => decide (key x = v)) =
      l.filter (fun x => decide (key x = v)) := by
  induction l with
  | nil => rfl
  | cons a t ih =>
    show (insertAsc key a (sortAsc key t)).filter _ = _
    rw [filter_insertAsc]
    by_cases h : key a = v <;> simp [List.filter_cons, h, ih]

theorem sort_values_desc_pairwise {α : Type} (key : α → ℚ) (l : List α) :
    (sort_values_desc key l).Pairwise fun x y => key y ≤ key x :=
  List.pairwise_reverse.mpr (sortAsc_pairwise key l.reverse)

theorem sort_values_desc_perm {α : Type} (key : α → ℚ) (l : List α) :
    (sort_values_desc key l).Perm l :=
  ((List.reverse_perm _).trans (sortAsc_perm key l.reverse)).trans (List.reverse_perm l)

/-- Tie stability of the descending sort: the subsequence of rows sharing any
one key value survives in its original input order — the pre-reversal of the
values and the post-reversal of the indexer cancel on equal keys. -/
theorem filter_sort_values_desc {α : Type} (key : α → ℚ) (v : ℚ) (l : List α) :
    (sort_values_desc key l).filter (fun x => decide (key x = v)) =
      l.filter (fun x => decide (key x = v)) := by
  unfold sort_values_desc
  rw [List.filter_reverse, filter_sortAsc, List.filter_reverse, List.reverse_reverse]

/-! ### Lemmas about the background point cloud's shape -/

theorem length_flatMap_range_map {α : Type} (n m : ℕ) (f : ℕ → ℕ → α) :
    ((List.range n).flatMap fun i => (List.range m).map (f i)).length = n * m := by
  induction n with
  | zero => simp
  | succ k ih =>
    rw [List.range_succ, List.flatMap_append, List.length_append, ih]
    simp [Nat.succ_mul]

theorem getElem_flatMap_range_map {α : Type} (n m i j : ℕ) (f : ℕ → ℕ → α)
    (hi : i < n) (hj : j < m) :
    ((List.range n).flatMap fun i => (List.range m).map (f i))[m * i + j]? =
      some (f i j) := by
  induction n with
  | zero => omega
  | succ k ih =>
    rw [List.range_succ, List.flatMap_append, List.getElem?_append]
    rw [length_flatMap_range_map]
    by_cases h : i < k
    · rw [if_pos (by nlinarith)]
      exact ih h
    · have hik : i = k := by omega
      subst hik
      rw [if_neg (by nlinarith)]
      have hidx : m * i + j - i * m = j := by
        rw [Nat.mul_comm]
        omega
      rw [hidx]
      simp only [List.flatMap_cons, List.flatMap_nil, List.append_nil]
      rw [List.getElem?_map, List.getElem?_range hj]
      rfl

/-! ### Claim theorems -/

/-- C1: for every isotope table, half-life range and allowed-uses set,
`filter_isotopes` returns exactly the subsequence of input rows with
`lo <= half_life <= hi` and `primary_use` in the allowed set, in input
order; an empty allowed-uses set yields the empty sequence; and on the
8-isotope catalog with range (1, 100000) and uses {Medical, Industrial}
the survivors are exactly Tc-99m, I-131, Co-60, Mo-99, Xe-133, Ir-192
(C-14 and U-235 excluded). -/
theorem filter_isotopes_spec (lo hi : ℚ) (uses : List Use) (df : List Isotope) :
    (filter_isotopes lo hi uses df).Sublist df
    ∧ (∀ r, r ∈ filter_isotopes lo hi uses df ↔
        r ∈ df ∧ lo ≤ r.half_life ∧ r.half_life ≤ hi ∧ r.primary_use ∈ uses)
    ∧ filter_isotopes lo hi [] df = []
    ∧ (filter_isotopes 1 100000 [Use.Medical, Use.Industrial] get_isotope_data).map
        Isotope.isotope = ["Tc-99m", "I-131", "Co-60", "Mo-99", "Xe-133", "Ir-192"] := by
  refine ⟨List.filter_sublist _, ?_, ?_, ?_⟩
  · intro r
    simp [filter_isotopes, List.mem_filter, and_assoc]
  · simp [filter_isotopes]
  · norm_num [filter_isotopes, get_isotope_data, tc99m, i131, co60, mo99, xe133,
      ir192, c14, u235, List.filter]

/-- C2: every row of the derived market-value column satisfies
`market_value = global_production * cost_per_GBq * 1000`; on the catalog the
column reads 37.5e9 (Tc-99m), 4.5e9, 7.5e7, 6e10, 1.5e10, 1.4e8, 5e8, 2.5e8. -/
theorem with_market_value_spec :
    (∀ (df : List Isotope) (p : Isotope × ℚ), p ∈ with_market_value df →
        p.2 = p.1.global_production * p.1.cost_per_GBq * 1000)
    ∧ (with_market_value get_isotope_data).map Prod.snd =
        [37500000000, 4500000000, 75000000, 60000000000, 15000000000,
         140000000, 500000000, 250000000] := by
  constructor
  · rintro df p hp
    rcases List.mem_map.mp hp with ⟨r, _, rfl⟩
    rfl
  · norm_num [with_market_value, get_isotope_data, tc99m, i131, co60, mo99, xe133,
      ir192, c14, u235]

/-- C3: `clean_country_production` drops the "NR" sentinel rows first and
then the rows whose production fails numeric coercion: every output row
stems from an input row whose original value was not the sentinel and whose
coercion succeeded with the output's value, and a table holding the single
row (Country=X, Total_Production_TBq="NR") cleans to the empty sequence. -/
theorem clean_country_production_spec (parse : String → Option ℚ)
    (rows : List CountryRow) :
    (∀ out, out ∈ clean_country_production parse rows →
        ∃ r, r ∈ rows ∧ r.total_production ≠ ProdVal.str "NR"
          ∧ to_numeric parse r.total_production = some out.total_production
          ∧ out.country = r.country ∧ out.major_isotopes = r.major_isotopes)
    ∧ clean_country_production parse [⟨"X", "", ProdVal.str "NR"⟩] = [] := by
  constructor
  · intro out hout
    rcases List.mem_filterMap.mp hout with ⟨r, hr, hmap⟩
    rcases List.mem_filter.mp hr with ⟨hrows, hdec⟩
    rcases Option.map_eq_some'.mp hmap with ⟨q, hq, hmk⟩
    refine ⟨r, hrows, by simpa using hdec, ?_, ?_, ?_⟩
    · rw [hq, ← hmk]
    · rw [← hmk]
    · rw [← hmk]
  · simp [clean_country_production]

/-- Two catalog-shaped rows sharing one market value (1 * 1 * 1000), used to
exhibit the tie order the sort actually produces. -/
def isoA : Isotope := ⟨"A", 1, .Reactor, .Medical, 1, 1, 1, 1, ""⟩

def isoB : Isotope := ⟨"B", 1, .Reactor, .Medical, 1, 1, 1, 1, ""⟩

/-- C4: `make_market_value_bars` is sorted by market value descending, is a
permutation of the input's bars, and for any value the rows carrying it
survive in their original input order (pandas' descending sort is stable:
it reverses the values before the ascending argsort and the indexer after,
so the reversals cancel on ties); concretely, the tied two-row table
[isoA, isoB] comes out as [A, B], the input order. -/
theorem make_market_value_bars_spec (df : List Isotope) :
    (make_market_value_bars df).Pairwise (fun x y => y.2.1 ≤ x.2.1)
    ∧ (make_market_value_bars df).Perm
        ((with_market_value df).map fun p => (p.1.isotope, p.2, p.1.primary_use))
    ∧ (∀ v : ℚ, (make_market_value_bars df).filter (fun x => decide (x.2.1 = v))
        = ((with_market_value df).map fun p => (p.1.isotope, p.2, p.1.primary_use)).filter
            (fun x => decide (x.2.1 = v)))
    ∧ make_market_value_bars [isoA, isoB]
        = [("A", 1000, Use.Medical), ("B", 1000, Use.Medical)] := by
  refine ⟨?_, ?_, ?_, ?_⟩
  · exact (sort_values_desc_pairwise (fun p => p.2) (with_market_value df)).map _
      (fun a b h => h)
  · exact (sort_values_desc_perm (fun p => p.2) (with_market_value df)).map _
  · intro v
    unfold make_market_value_bars
    rw [List.filter_map, List.filter_map]
    have hcomp : ((fun x : String × ℚ × Use => decide (x.2.1 = v)) ∘
        fun p : Isotope × ℚ => (p.1.isotope, p.2, p.1.primary_use))
        = fun p : Isotope × ℚ => decide (p.2 = v) := rfl
    rw [hcomp, filter_sort_values_desc]
  · norm_num [make_market_value_bars, with_market_value, sort_values_desc, sortAsc,
      insertAsc, isoA, isoB]

/-- Two cleaned country rows sharing one production total, listed with the
name-descending row first so input order and name order disagree. -/
def cnA : CountryNum := ⟨"A", "", 5⟩

def cnB : CountryNum := ⟨"B", "", 5⟩

/-- C5 (counterexample): on the two-row cleaned table [cnB, cnA] with equal
production totals, `make_country_bars` keeps the input order and emits B
before A — so ties are not broken by country name ascending as claimed. -/
theorem make_country_bars_tie_cex :
    make_country_bars [cnB, cnA] = [("B", 5), ("A", 5)]
    ∧ make_country_bars [cnB, cnA] ≠ [("A", 5), ("B", 5)] := by
  have hEq : make_country_bars [cnB, cnA] = [("B", 5), ("A", 5)] := by
    norm_num [make_country_bars, sort_values_desc, sortAsc, insertAsc, cnA, cnB]
  refine ⟨hEq, ?_⟩
  rw [hEq]
  simp

/-- C5 (amended): `make_country_bars` is sorted by production descending and
is a permutation of the input's bars, and rows with equal totals keep their
original input order (pandas' stable descending sort); no secondary sort by
country name exists in the source. -/
theorem make_country_bars_order (rows : List CountryNum) :
    (make_country_bars rows).Pairwise (fun x y => y.2 ≤ x.2)
    ∧ (make_country_bars rows).Perm
        (rows.map fun r => (r.country, r.total_production))
    ∧ ∀ v : ℚ, (make_country_bars rows).filter (fun x => decide (x.2 = v))
        = (rows.map fun r => (r.country, r.total_production)).filter
            (fun x => decide (x.2 = v)) := by
  refine ⟨?_, ?_, ?_⟩
  · exact (sort_values_desc_pairwise (fun r => r.total_production) rows).map _
      (fun a b h => h)
  · exact (sort_values_desc_perm (fun r => r.total_production) rows).map _
  · intro v
    unfold make_country_bars
    rw [List.filter_map, List.filter_map]
    have hcomp : ((fun x : String × ℚ => decide (x.2 = v)) ∘
        fun r : CountryNum => (r.country, r.total_production))
        = fun r : CountryNum => decide (r.total_production = v) := rfl
    rw [hcomp, filter_sort_values_desc]

/-- C6 (counterexample): the log10 transform raises nothing on non-positive
input: 0 silently becomes -inf and -1 silently becomes NaN, and the log-log
scatter mapping passes a row with zero cost through instead of failing. -/
theorem np_log10_no_error_cex :
    np_log10 0 = Np10.negInf
    ∧ np_log10 (-1) = Np10.nan
    ∧ (make_scatter_points [⟨"Z", 1, .Reactor, .Medical, 0, 0, 1, 1, ""⟩]).length = 1 := by
  refine ⟨?_, ?_, rfl⟩
  · norm_num [np_log10]
  · norm_num [np_log10]

/-- C6 (amended): the source validates nothing before its logarithms:
`np_log10` is total, mapping 0 to -inf and every negative input to NaN
(numpy's silent semantics, no DomainError), and the log-log scatter mapping
keeps every row whatever its values. -/
theorem np_log10_total_spec :
    (∀ q : ℚ, q = 0 → np_log10 q = Np10.negInf)
    ∧ (∀ q : ℚ, q < 0 → np_log10 q = Np10.nan)
    ∧ (∀ df : List Isotope, (make_scatter_points df).length = df.length) := by
  refine ⟨?_, ?_, ?_⟩
  · rintro q rfl
    norm_num [np_log10]
  · intro q hq
    rw [np_log10, if_neg (by linarith), if_neg (by linarith)]
  · intro df
    simp [make_scatter_points]

/-- C7: `load_country_data` is total — no failure propagates to the caller —
and on a missing source file or any read/parse failure it returns the fixed
6-entry fallback catalog. -/
theorem load_country_data_fallback :
    load_country_data LoadResult.missing = fallback_country_data
    ∧ (∀ msg, load_country_data (LoadResult.failure msg) = fallback_country_data)
    ∧ fallback_country_data.length = 6 :=
  ⟨rfl, fun _ => rfl, rfl⟩

/-- C8: for any noise stream, `create_atomic_background` with its fixed 100
rings of 10 angular steps yields exactly 1000 points, and the point for ring
i and step j sits at (cos(2*pi*j/10), sin(2*pi*j/10), i/10) perturbed by the
three fresh draws the source takes for that point — consecutive stream
positions, so every perturbation is an independent draw. -/
theorem create_atomic_background_spec (noise : ℕ → ℝ) :
    (create_atomic_background noise).length = 1000
    ∧ ∀ i j : ℕ, i < 100 → j < 10 →
        (create_atomic_background noise)[10 * i + j]? =
          some (Real.cos (2 * Real.pi * (j : ℝ) / 10) + noise (3 * (10 * i + j)),
                Real.sin (2 * Real.pi * (j : ℝ) / 10) + noise (3 * (10 * i + j) + 1),
                (i : ℝ) / 10 + noise (3 * (10 * i + j) + 2)) := by
  constructor
  · exact length_flatMap_range_map 100 10 _
  · intro i j hi hj
    exact getElem_flatMap_range_map 100 10 i j _ hi hj

/-- C9 (counterexample): with the default filter parameters the download of
line 249 still serializes C-14 (which the filter excludes) and all 8 rows of
the raw catalog, while only 6 rows survive the filter — the exported table
is not the filtered table. -/
theorem download_unfiltered_cex :
    c14 ∈ download_isotope_data 1 100000 [Use.Medical, Use.Industrial]
    ∧ c14 ∉ filter_isotopes 1 100000 [Use.Medical, Use.Industrial] get_isotope_data
    ∧ (download_isotope_data 1 100000 [Use.Medical, Use.Industrial]).length = 8
    ∧ (filter_isotopes 1 100000 [Use.Medical, Use.Industrial] get_isotope_data).length
        = 6 := by
  refine ⟨?_, ?_, rfl, ?_⟩
  · simp [download_isotope_data, get_isotope_data]
  · norm_num [filter_isotopes, get_isotope_data, List.filter, tc99m, i131, co60,
      mo99, xe133, ir192, c14, u235]
  · norm_num [filter_isotopes, get_isotope_data, List.filter, tc99m, i131, co60,
      mo99, xe133, ir192, c14, u235]

/-- C9 (amended): the table serialized for download is the full unfiltered
8-row isotope catalog with only its original columns — the filter parameters
do not affect it, and the derived market-value and log-half-life fields are
not part of it (the download button is built before the derived column is
added). -/
theorem download_isotope_data_full (lo hi : ℚ) (uses : List Use) :
    download_isotope_data lo hi uses = get_isotope_data
    ∧ (download_isotope_data lo hi uses).length = 8
    ∧ (download_isotope_data lo hi uses).map Isotope.isotope
        = ["Tc-99m", "I-131", "Co-60", "Mo-99", "Xe-133", "Ir-192", "C-14", "U-235"] := by
  refine ⟨rfl, rfl, ?_⟩
  simp [download_isotope_data, get_isotope_data, tc99m, i131, co60, mo99, xe133,
    ir192, c14, u235]

/-- C10: the half-life range and allowed-uses parameters influence only the
3D isotope scatter trace: for any two parameter choices the economic
cost/production scatter, the market-value bars and the country production
bars are identical (all three read the unfiltered tables), while the 3D
trace itself does change with the parameters. -/
theorem filter_params_noninterference (lo1 hi1 lo2 hi2 : ℚ)
    (uses1 uses2 : List Use) (res : LoadResult) (parse : String → Option ℚ) :
    econ_scatter_output lo1 hi1 uses1 = econ_scatter_output lo2 hi2 uses2
    ∧ market_bars_output lo1 hi1 uses1 = market_bars_output lo2 hi2 uses2
    ∧ country_bars_output lo1 hi1 uses1 res parse
        = country_bars_output lo2 hi2 uses2 res parse
    ∧ make_3d_isotope_points 1 100000 []
        ≠ make_3d_isotope_points 1 100000 [Use.Medical] := by
  refine ⟨rfl, rfl, rfl, ?_⟩
  intro h
  have hlen := congrArg List.length h
  have h0 : (make_3d_isotope_points 1 100000 []).length = 0 := by
    simp [make_3d_isotope_points, filter_isotopes]
  have h4 : (make_3d_isotope_points 1 100000 [Use.Medical]).length = 4 := by
    have hd : decide (Use.Industrial = Use.Medical) = false := rfl
    have hmap : (filter_isotopes 1 100000 [Use.Medical] get_isotope_data).map
        Isotope.isotope = ["Tc-99m", "I-131", "Mo-99", "Xe-133"] := by
      norm_num [filter_isotopes, get_isotope_data, List.filter, tc99m, i131, co60,
        mo99, xe133, ir192, c14, u235, hd]
    have hlen4 : (filter_isotopes 1 100000 [Use.Medical] get_isotope_data).length = 4 := by
      have := congrArg List.length hmap
      simpa using this
    simp [make_3d_isotope_points, hlen4]
  rw [h0, h4] at hlen
  exact absurd hlen (by norm_num)
